import Mathlib

/-!
Verification of the companion session-bridge core against its sources.

Embedded sources:
* web/src/ws.ts — the browser-side frame handler (handleMessage,
  extractTasksFromBlocks, extractTextFromBlocks) and its module-level
  per-session bookkeeping (processedToolUseIds, taskCounters).
* web/server concatenated index (in src/web/server/cf-access-middleware.ts):
  the auto-relaunch guard around onCLIRelaunchNeededCallback and the
  reconnection watchdog (RECONNECT_GRACE_MS block).
* web/server push manager (same concatenated file): addSubscription,
  removeSubscription, sendPushToAll.

The client store (web/src/store.ts) and the CLI launcher
(web/server/cli-launcher.ts) are not in the source tree; their operations are
modelled from the spec (and, where applicable, pinned by the store test file
that is present). Each such definition carries a doc comment starting with
"Modelled from the spec:".

Modelling conventions:
* The store keeps per-session maps keyed by session id; the frame handler for
  a session only reads and writes the entries at that session id, so the
  embedding works on the projection of the store to one session
  (SessionSlice below).
* JavaScript truthiness on optional strings (undefined and "" are falsy) is
  rendered by strTruthy / strOr; maps and sets become association lists and
  lists; Date.now() becomes an explicit parameter; JSON.parse becomes the
  RawLine dichotomy (malformed vs parsed frame).
* Numeric fields that are IEEE doubles in the source carry exact rationals
  here; no claim depends on float rounding.
* Exceptions: the handler catches all parse failures, so the embedding is a
  total function; absence of exceptions is rendered by totality.
-/

namespace Companion

/-! ### Data shapes from web/src/types.ts (pinned by their uses in ws.ts and
    the store tests) -/

/-- One entry of the todos array of a TodoWrite tool input. -/
structure TodoEntry where
  content : Option String := none
  status : Option String := none
  activeForm : Option String := none
  deriving DecidableEq, Repr

/-- The tool input fields read by extractTasksFromBlocks. -/
structure ToolInput where
  todos : Option (List TodoEntry) := none
  subject : Option String := none
  description : Option String := none
  activeForm : Option String := none
  taskId : Option String := none
  status : Option String := none
  owner : Option String := none
  addBlockedBy : Option (List String) := none
  deriving DecidableEq, Repr

/-- Content blocks of an assistant message, as read by ws.ts. -/
inductive ContentBlock where
  | text (text : String)
  | thinking (thinking : String)
  | toolUse (id : Option String) (name : Option String) (input : Option ToolInput)
  | other
  deriving DecidableEq, Repr

/-- Task items of the derived per-session task list. -/
structure TaskItem where
  id : String
  subject : String
  description : String
  activeForm : Option String := none
  status : String
  owner : Option String := none
  blockedBy : Option (List String) := none
  deriving DecidableEq, Repr

inductive Role where
  | user
  | assistant
  | system
  deriving DecidableEq, Repr

/-- Chat messages of the per-session history (absent id rendered as ""). -/
structure ChatMessage where
  id : String
  role : Role
  content : String
  contentBlocks : Option (List ContentBlock) := none
  timestamp : Nat
  parentToolUseId : Option String := none
  model : Option String := none
  stopReason : Option String := none
  deriving DecidableEq, Repr

/-- Pending permission requests (tool_name absent is rendered as ""). -/
structure PermissionRequest where
  request_id : String
  tool_name : String := ""
  input : Option ToolInput := none
  timestamp : Nat := 0
  tool_use_id : Option String := none
  deriving DecidableEq, Repr

inductive SessionStatus where
  | idle
  | running
  | compacting
  deriving DecidableEq, Repr

/-- The session metadata fields touched by the result case of handleMessage. -/
structure SessionMeta where
  total_cost_usd : ℚ := 0
  num_turns : Nat := 0
  context_used_percent : ℤ := 0
  total_lines_added : ℤ := 0
  total_lines_removed : ℤ := 0
  deriving DecidableEq, Repr

/-- One entry of result.modelUsage (token counts carried as rationals). -/
structure ModelUsage where
  inputTokens : ℚ := 0
  outputTokens : ℚ := 0
  contextWindow : ℚ := 0
  deriving DecidableEq, Repr

/-- The payload of a result frame. -/
structure ResultData where
  total_cost_usd : ℚ := 0
  num_turns : Nat := 0
  modelUsage : Option (List ModelUsage) := none
  is_error : Bool := false
  errors : Option (List String) := none
  total_lines_added : Option ℤ := none
  total_lines_removed : Option ℤ := none
  deriving DecidableEq, Repr

inductive StreamDelta where
  | textDelta (text : String)
  | otherDelta
  deriving DecidableEq, Repr

structure StreamUsage where
  output_tokens : Option Nat := none
  deriving DecidableEq, Repr

inductive StreamEvent where
  | messageStart
  | contentBlockDelta (delta : Option StreamDelta)
  | messageDelta (usage : Option StreamUsage)
  | otherEvent
  deriving DecidableEq, Repr

/-- The message field of an assistant frame. -/
structure AssistantMessage where
  id : String
  content : List ContentBlock
  model : Option String := none
  stop_reason : Option String := none
  deriving DecidableEq, Repr

/-- The inbound browser frames handled by the claims under study.  The frame
kinds session_init, session_update, message_history, tool_progress,
tool_use_summary, status_change, auth_status, error, cli_connected and
cli_disconnected are outside every claim and are not part of the embedded
fragment; unrecognized frame types fall through the switch of the source with
no state change and are the constructor other. -/
inductive BrowserIncomingMessage where
  | assistant (message : AssistantMessage) (parent_tool_use_id : Option String)
  | streamEvent (event : Option StreamEvent)
  | result (data : ResultData)
  | permissionRequest (request : PermissionRequest)
  | permissionCancelled (request_id : String)
  | other
  deriving DecidableEq, Repr

/-! ### JavaScript truthiness helpers -/

/-- Truthiness of an optional string: undefined and "" are falsy. -/
def strTruthy : Option String → Bool
  | some s => s != ""
  | none => false

/-- The idiom (x || d) on an optional string. -/
def strOr (o : Option String) (d : String) : String :=
  match o with
  | some s => if s == "" then d else s
  | none => d

/-! ### Per-session store slice

The zustand store of web/src/store.ts keeps maps keyed by session id;
handleMessage for one session only touches the entries of that session, so
the embedding carries the projection to a single session.  The task
derivation state groups the fields that extractTasksFromBlocks reads and
writes: the derived task list (store), the task counter and the processed
tool_use id set (module-level maps in ws.ts). -/

structure TaskState where
  sessionTasks : List TaskItem := []
  taskCounter : Option Nat := none
  processedToolUseIds : List String := []
  deriving DecidableEq, Repr

structure SessionSlice where
  messages : List ChatMessage := []
  streaming : Option String := none
  streamingStartedAt : Option Nat := none
  streamingOutputTokens : Option Nat := none
  pendingPermissions : List (String × PermissionRequest) := []
  sessionStatus : Option SessionStatus := none
  session : Option SessionMeta := none
  tasks : TaskState := {}
  idCounter : Nat := 0
  deriving DecidableEq, Repr

/-! ### Store operations (web/src/store.ts is absent from the tree) -/

/-- Modelled from the spec: appendMessage of the missing client store
(web/src/store.ts).  History is append-only, deduplicated by message id when
present; messages without an id are never deduplicated.  Pinned by the store
tests: a duplicate non-empty id keeps exactly one message, retaining the
first; blank-id messages always append. -/
def appendMessage (msgs : List ChatMessage) (msg : ChatMessage) : List ChatMessage :=
  if msg.id != "" && msgs.any (fun m => m.id == msg.id) then msgs
  else msgs ++ [msg]

/-- Modelled from the spec: addPermission of the missing client store inserts
into the per-session pending map keyed by request_id (JavaScript Map.set:
replace in place when the key exists, append otherwise). -/
def addPermission (perms : List (String × PermissionRequest)) (req : PermissionRequest) :
    List (String × PermissionRequest) :=
  if perms.any (fun p => p.1 == req.request_id) then
    perms.map (fun p => if p.1 == req.request_id then (p.1, req) else p)
  else perms ++ [(req.request_id, req)]

/-- Modelled from the spec: removePermission of the missing client store
deletes one request id from the pending map. -/
def removePermission (perms : List (String × PermissionRequest)) (rid : String) :
    List (String × PermissionRequest) :=
  perms.filter (fun p => p.1 != rid)

/-- Lookup in the pending-permission map (JavaScript Map.get). -/
def lookupPermission (perms : List (String × PermissionRequest)) (rid : String) :
    Option PermissionRequest :=
  (perms.find? (fun p => p.1 == rid)).map Prod.snd

/-- The partial task updates built by the TaskUpdate branch. -/
structure TaskUpdates where
  status : Option String := none
  owner : Option String := none
  activeForm : Option String := none
  blockedBy : Option (List String) := none
  deriving DecidableEq, Repr

/-- Object spread of a partial update onto a task. -/
def applyTaskUpdates (t : TaskItem) (u : TaskUpdates) : TaskItem :=
  { t with
    status := match u.status with | some v => v | none => t.status
    owner := match u.owner with | some v => some v | none => t.owner
    activeForm := match u.activeForm with | some v => some v | none => t.activeForm
    blockedBy := match u.blockedBy with | some v => some v | none => t.blockedBy }

/-- Modelled from the spec: updateTask of the missing client store merges the
updates into the task with the matching id, leaving the others untouched
(pinned by the store tests). -/
def updateTask (tasks : List TaskItem) (taskId : String) (u : TaskUpdates) : List TaskItem :=
  tasks.map (fun t => if t.id == taskId then applyTaskUpdates t u else t)

/-- The optional-field stats argument of setStreamingStats. -/
structure StreamingStats where
  startedAt : Option Nat := none
  outputTokens : Option Nat := none
  deriving DecidableEq, Repr

/-- Modelled from the spec: setStreamingStats of the missing client store.
Pinned by the store tests: with a stats object, only the provided fields are
set; with null, both fields are cleared. -/
def setStreamingStats (s : SessionSlice) (stats : Option StreamingStats) : SessionSlice :=
  match stats with
  | none => { s with streamingStartedAt := none, streamingOutputTokens := none }
  | some u =>
    { s with
      streamingStartedAt :=
        match u.startedAt with | some v => some v | none => s.streamingStartedAt
      streamingOutputTokens :=
        match u.outputTokens with | some v => some v | none => s.streamingOutputTokens }

/-- Modelled from the spec: setStreaming of the missing client store (null
deletes the entry). -/
def setStreaming (s : SessionSlice) (v : Option String) : SessionSlice :=
  { s with streaming := v }

/-- Modelled from the spec: setSessionStatus of the missing client store. -/
def setSessionStatus (s : SessionSlice) (st : Option SessionStatus) : SessionSlice :=
  { s with sessionStatus := st }

/-- The partial session updates built by the result case. -/
structure SessionUpdates where
  total_cost_usd : Option ℚ := none
  num_turns : Option Nat := none
  context_used_percent : Option ℤ := none
  total_lines_added : Option ℤ := none
  total_lines_removed : Option ℤ := none
  deriving DecidableEq, Repr

/-- Modelled from the spec: updateSession of the missing client store merges
partial updates into the existing session record, a no-op when the session is
unknown (pinned by the store tests). -/
def updateSession (s : Option SessionMeta) (u : SessionUpdates) : Option SessionMeta :=
  match s with
  | none => none
  | some m =>
    some
      { total_cost_usd := match u.total_cost_usd with | some v => v | none => m.total_cost_usd
        num_turns := match u.num_turns with | some v => v | none => m.num_turns
        context_used_percent :=
          match u.context_used_percent with | some v => v | none => m.context_used_percent
        total_lines_added :=
          match u.total_lines_added with | some v => v | none => m.total_lines_added
        total_lines_removed :=
          match u.total_lines_removed with | some v => v | none => m.total_lines_removed }

/-! ### extractTasksFromBlocks (web/src/ws.ts lines 20-82) -/

/-- The task built from one todos entry of a TodoWrite input
(ids are 1-based positions; falsy content and status fall back). -/
def todoToTask (i : Nat) (t : TodoEntry) : TaskItem :=
  { id := toString (i + 1)
    subject := strOr t.content "Task"
    description := ""
    activeForm := t.activeForm
    status := strOr t.status "pending" }

/-- The name dispatch of extractTasksFromBlocks for one block whose name and
input checks passed: TodoWrite replaces the whole list and resets the
counter, TaskCreate appends a fresh task, TaskUpdate merges updates into the
matching task. -/
def dispatchTaskTool (ts : TaskState) (nameS : String) (inp : ToolInput) : TaskState :=
  if nameS == "TodoWrite" then
    match inp.todos with
    | some todos =>
      let newTasks := todos.enum.map (fun it => todoToTask it.1 it.2)
      { ts with sessionTasks := newTasks, taskCounter := some newTasks.length }
    | none => ts
  else if nameS == "TaskCreate" then
    let count := ts.taskCounter.getD 0 + 1
    let task : TaskItem :=
      { id := toString count
        subject := strOr inp.subject "Task"
        description := strOr inp.description ""
        activeForm := inp.activeForm
        status := "pending" }
    { ts with sessionTasks := ts.sessionTasks ++ [task], taskCounter := some count }
  else if nameS == "TaskUpdate" then
    if strTruthy inp.taskId then
      let updates : TaskUpdates :=
        { status := if strTruthy inp.status then inp.status else none
          owner := if strTruthy inp.owner then inp.owner else none
          activeForm := inp.activeForm
          blockedBy := inp.addBlockedBy }
      { ts with
        sessionTasks := updateTask ts.sessionTasks (inp.taskId.getD "") updates }
    else ts
  else ts

/-- One iteration of the for loop of extractTasksFromBlocks: skip non
tool_use blocks and blocks with falsy name or missing input; deduplicate by
truthy tool_use id (the id is marked processed before the name dispatch, for
every tool name); then dispatch on the tool name. -/
def extractTasksBlock (ts : TaskState) (block : ContentBlock) : TaskState :=
  match block with
  | ContentBlock.toolUse toolUseId name input =>
    if !strTruthy name then ts
    else
      match input with
      | none => ts
      | some inp =>
        if strTruthy toolUseId && ts.processedToolUseIds.contains (toolUseId.getD "") then ts
        else
          let ts :=
            if strTruthy toolUseId then
              { ts with processedToolUseIds := ts.processedToolUseIds ++ [toolUseId.getD ""] }
            else ts
          dispatchTaskTool ts (name.getD "") inp
  | _ => ts

/-- extractTasksFromBlocks of web/src/ws.ts, on the task state of one
session. -/
def extractTasksFromBlocks (ts : TaskState) (blocks : List ContentBlock) : TaskState :=
  blocks.foldl extractTasksBlock ts

/-! ### handleMessage (web/src/ws.ts lines 105-348, embedded fragment) -/

/-- nextId of ws.ts: a fresh message id from the clock and a bumped module
counter. -/
def nextId (now : Nat) (counter : Nat) : String :=
  "msg-" ++ toString now ++ "-" ++ toString (counter + 1)

/-- extractTextFromBlocks of ws.ts: text and thinking blocks concatenated
with newlines, empty pieces filtered out. -/
def blockText : ContentBlock → String
  | ContentBlock.text t => t
  | ContentBlock.thinking t => t
  | _ => ""

def extractTextFromBlocks (blocks : List ContentBlock) : String :=
  String.intercalate "\n" ((blocks.map blockText).filter (fun s => s != ""))

/-- The session updates object built by the result case (cost and turn count
always present, lines added and removed forwarded when present, context
percent derived from the last modelUsage entry with a positive context
window). -/
def resultSessionUpdates (r : ResultData) : SessionUpdates :=
  let su : SessionUpdates :=
    { total_cost_usd := some r.total_cost_usd, num_turns := some r.num_turns }
  let su :=
    match r.total_lines_added with
    | some v => { su with total_lines_added := some v }
    | none => su
  let su :=
    match r.total_lines_removed with
    | some v => { su with total_lines_removed := some v }
    | none => su
  match r.modelUsage with
  | some usages =>
    usages.foldl
      (fun acc usage =>
        if usage.contextWindow > 0 then
          { acc with
            context_used_percent :=
              some (round (((usage.inputTokens + usage.outputTokens) / usage.contextWindow * 100 : ℚ))) }
        else acc)
      su
  | none => su

/-- The finalized chat message built by the assistant case. -/
def assistantChatMessage (msg : AssistantMessage) (parentId : Option String) (now : Nat) :
    ChatMessage :=
  { id := msg.id
    role := Role.assistant
    content := extractTextFromBlocks msg.content
    contentBlocks := some msg.content
    timestamp := now
    parentToolUseId := parentId
    model := msg.model
    stopReason := msg.stop_reason }

/-- The switch body of handleMessage for one parsed frame.  Reads of the
store snapshot taken at the top of the source function agree with the
sequentially threaded state here: no case mutates a field before reading it. -/
def handleFrame (s : SessionSlice) (data : BrowserIncomingMessage) (now : Nat) : SessionSlice :=
  match data with
  | BrowserIncomingMessage.assistant msg parentId =>
    let chatMsg := assistantChatMessage msg parentId now
    let s := { s with messages := appendMessage s.messages chatMsg }
    let s := setStreaming s none
    let s := setSessionStatus s (some SessionStatus.running)
    let s :=
      if s.streamingStartedAt.isNone then
        setStreamingStats s (some { startedAt := some now })
      else s
    if msg.content.length != 0 then
      { s with tasks := extractTasksFromBlocks s.tasks msg.content }
    else s
  | BrowserIncomingMessage.streamEvent evt =>
    match evt with
    | none => s
    | some e =>
      match e with
      | StreamEvent.messageStart =>
        if s.streamingStartedAt.isNone then
          setStreamingStats s (some { startedAt := some now, outputTokens := some 0 })
        else s
      | StreamEvent.contentBlockDelta delta =>
        match delta with
        | some (StreamDelta.textDelta text) =>
          let current := s.streaming.getD ""
          setStreaming s (some (current ++ text))
        | _ => s
      | StreamEvent.messageDelta usage =>
        match usage with
        | some u =>
          match u.output_tokens with
          | some n => if n != 0 then setStreamingStats s (some { outputTokens := some n }) else s
          | none => s
        | none => s
      | StreamEvent.otherEvent => s
  | BrowserIncomingMessage.result r =>
    let s := { s with session := updateSession s.session (resultSessionUpdates r) }
    let s := setStreaming s none
    let s := setStreamingStats s none
    let s := setSessionStatus s (some SessionStatus.idle)
    let errs := match r.errors with | some es => es | none => []
    if r.is_error && errs.length != 0 then
      let mid := nextId now s.idCounter
      let s := { s with idCounter := s.idCounter + 1 }
      { s with
        messages :=
          appendMessage s.messages
            { id := mid
              role := Role.system
              content := "Error: " ++ String.intercalate ", " errs
              timestamp := now } }
    else s
  | BrowserIncomingMessage.permissionRequest req =>
    let s := { s with pendingPermissions := addPermission s.pendingPermissions req }
    if req.tool_name != "" && req.input.isSome then
      { s with
        tasks :=
          extractTasksFromBlocks s.tasks
            [ContentBlock.toolUse req.tool_use_id (some req.tool_name) req.input] }
    else s
  | BrowserIncomingMessage.permissionCancelled rid =>
    { s with pendingPermissions := removePermission s.pendingPermissions rid }
  | BrowserIncomingMessage.other => s

/-- An inbound frame line: either not valid JSON (the catch branch of the
source returns with no state change) or a parsed frame. -/
inductive RawLine where
  | malformed
  | frame (data : BrowserIncomingMessage)
  deriving DecidableEq, Repr

/-- handleMessage of web/src/ws.ts: JSON.parse inside try/catch, then the
switch on the frame type. -/
def handleMessage (s : SessionSlice) (line : RawLine) (now : Nat) : SessionSlice :=
  match line with
  | RawLine.malformed => s
  | RawLine.frame data => handleFrame s data now

/-! ### Supervisor state (web/server/cli-launcher.ts is absent from the tree)

The launcher records one entry per session with a connection state and an
archived flag.  The recovery code of the server entry reads it through
getSession and getStartingSessions, and the transport adapter marks a session
connected when its CLI WebSocket opens. -/

inductive LauncherState where
  | starting
  | connected
  | stopped
  deriving DecidableEq, Repr

structure LauncherSessionInfo where
  sessionId : String
  state : LauncherState
  archived : Bool
  deriving DecidableEq, Repr

/-- Modelled from the spec: getSession of the missing launcher
(read-only introspection used by the recovery coordinator). -/
def getSession (sessions : List LauncherSessionInfo) (sid : String) :
    Option LauncherSessionInfo :=
  sessions.find? (fun i => i.sessionId == sid)

/-- Modelled from the spec: getStartingSessions of the missing launcher,
the sessions whose process is alive but whose WebSocket has not connected. -/
def getStartingSessions (sessions : List LauncherSessionInfo) : List LauncherSessionInfo :=
  sessions.filter (fun i => i.state == LauncherState.starting)

/-- Modelled from the spec: markConnected of the missing launcher, invoked by
the transport adapter when the CLI WebSocket for a session opens. -/
def markConnected (sessions : List LauncherSessionInfo) (sid : String) :
    List LauncherSessionInfo :=
  sessions.map (fun i =>
    if i.sessionId == sid then { i with state := LauncherState.connected } else i)

/-- The persisted connection state of a session before shutdown. -/
inductive PersistedState where
  | pconnected
  | pstarting
  | pdisconnected
  deriving DecidableEq, Repr

structure PersistedSession where
  sessionId : String
  state : PersistedState
  archived : Bool
  deriving DecidableEq, Repr

/-- Modelled from the spec: restoreFromDisk of the missing launcher.  A
session persisted as connected or starting is restored with a live process
hint but no WebSocket, the starting state the watchdog looks for; other
sessions are restored disconnected. -/
def restoreState : PersistedState → LauncherState
  | PersistedState.pconnected => LauncherState.starting
  | PersistedState.pstarting => LauncherState.starting
  | PersistedState.pdisconnected => LauncherState.stopped

def restoreFromDisk (persisted : List PersistedSession) : List LauncherSessionInfo :=
  persisted.map (fun p =>
    { sessionId := p.sessionId, state := restoreState p.state, archived := p.archived })

/-! ### Reconnection watchdog (server entry, RECONNECT_GRACE_MS block)

The server entry arms one setTimeout of RECONNECT_GRACE_MS when any restored
session is still starting; when it fires, every session still starting and
not archived gets one relaunch call.  Between boot and the timer, CLI
WebSocket opens mark sessions connected.  The run below processes that event
timeline in order and returns the relaunch calls it emits, in order; the
one-shot timer is the single timerFire event of a timeline. -/

inductive WatchdogEvent where
  | reconnect (sid : String)
  | timerFire
  deriving DecidableEq, Repr

/-- The relaunch calls of the timer body: the stale getStartingSessions
entries, skipping archived ones. -/
def watchdogFireCalls (sessions : List LauncherSessionInfo) : List String :=
  ((getStartingSessions sessions).filter (fun i => !i.archived)).map
    (fun i => i.sessionId)

def watchdogStep (sessions : List LauncherSessionInfo) (e : WatchdogEvent) :
    List LauncherSessionInfo × List String :=
  match e with
  | WatchdogEvent.reconnect sid => (markConnected sessions sid, [])
  | WatchdogEvent.timerFire => (sessions, watchdogFireCalls sessions)

def watchdogRun (sessions : List LauncherSessionInfo) (events : List WatchdogEvent) :
    List String :=
  match events with
  | [] => []
  | e :: rest =>
    let step := watchdogStep sessions e
    step.2 ++ watchdogRun step.1 rest

/-- The launcher records after a prefix of watchdog events (the state
component threaded by watchdogRun). -/
def watchdogApply (sessions : List LauncherSessionInfo) (events : List WatchdogEvent) :
    List LauncherSessionInfo :=
  events.foldl (fun s e => (watchdogStep s e).1) sessions

/-! ### Browser-attach auto-relaunch guard (server entry,
onCLIRelaunchNeededCallback block)

A module-level relaunchingSet guards the relaunch: a needed event for a
session already in the set returns at once; otherwise the launcher record is
consulted (missing record: nothing; archived: nothing; state starting:
nothing) and an eligible session is added to the set and relaunched, with a
5s setTimeout scheduled to delete it from the set.  The run processes a
timeline of needed events and cooldown expirations (the scheduled deletes)
and returns the relaunch calls in order; relaunch does not mutate the fields
the guard reads, so the launcher records stay fixed along a run. -/

inductive RelaunchEvent where
  | relaunchNeeded (sid : String)
  | cooldownExpired (sid : String)
  deriving DecidableEq, Repr

structure RelaunchGuardState where
  relaunchingSet : List String := []
  sessions : List LauncherSessionInfo := []
  deriving DecidableEq, Repr

def relaunchStep (g : RelaunchGuardState) (e : RelaunchEvent) :
    RelaunchGuardState × List String :=
  match e with
  | RelaunchEvent.relaunchNeeded sid =>
    if g.relaunchingSet.contains sid then (g, [])
    else
      match getSession g.sessions sid with
      | some info =>
        if info.archived then (g, [])
        else if info.state != LauncherState.starting then
          ({ g with relaunchingSet := g.relaunchingSet ++ [sid] }, [sid])
        else (g, [])
      | none => (g, [])
  | RelaunchEvent.cooldownExpired sid =>
    ({ g with relaunchingSet := g.relaunchingSet.filter (fun x => x != sid) }, [])

def relaunchRun (g : RelaunchGuardState) (events : List RelaunchEvent) : List String :=
  match events with
  | [] => []
  | e :: rest =>
    let step := relaunchStep g e
    step.2 ++ relaunchRun step.1 rest

/-! ### Push manager (web/server push manager in the concatenated server file)

The subscription file contents become an explicit list threaded through the
operations; webpush.sendNotification outcomes become a function from
subscription to outcome (success, or rejection with an optional status
code). -/

structure PushKeys where
  p256dh : String := ""
  auth : String := ""
  deriving DecidableEq, Repr

structure PushSubscriptionData where
  endpoint : String
  keys : PushKeys := {}
  deriving DecidableEq, Repr

/-- addSubscription: replace in place the entry with the same endpoint, or
append. -/
def addSubscription (subs : List PushSubscriptionData) (sub : PushSubscriptionData) :
    List PushSubscriptionData :=
  match subs.findIdx? (fun s => s.endpoint == sub.endpoint) with
  | some i => subs.set i sub
  | none => subs ++ [sub]

/-- removeSubscription: filter out the endpoint; when nothing matched, return
false and leave the stored list untouched. -/
def removeSubscription (subs : List PushSubscriptionData) (endpoint : String) :
    List PushSubscriptionData × Bool :=
  let filtered := subs.filter (fun s => s.endpoint != endpoint)
  if filtered.length == subs.length then (subs, false)
  else (filtered, true)

/-- The outcome of one webpush.sendNotification call: resolution, or a
rejection carrying an optional statusCode. -/
inductive SendOutcome where
  | ok
  | failed (statusCode : Option Nat)
  deriving DecidableEq, Repr

/-- The catch branch of sendPushToAll marks a rejection expired exactly when
its statusCode is 410 or 404; every other outcome is logged and kept. -/
def isExpiredOutcome : SendOutcome → Bool
  | SendOutcome.failed (some c) => c == 410 || c == 404
  | _ => false

/-- sendPushToAll: send to every stored subscription (each send wrapped in
its own catch, so no rejection escapes), collect the endpoints of
permanently failed sends, and drop exactly those from the stored list (the
list is rewritten only when something expired). -/
def sendPushToAll (subs : List PushSubscriptionData)
    (send : PushSubscriptionData → SendOutcome) : List PushSubscriptionData :=
  if subs.length == 0 then subs
  else
    let expired :=
      (subs.filter (fun sub => isExpiredOutcome (send sub))).map (fun s => s.endpoint)
    if expired.length != 0 then
      subs.filter (fun s => !expired.contains s.endpoint)
    else subs

/-! ## Helper lemmas -/

theorem appendMessage_fresh (msgs : List ChatMessage) (msg : ChatMessage)
    (h : msg.id = "" ∨ ∀ m ∈ msgs, m.id ≠ msg.id) :
    appendMessage msgs msg = msgs ++ [msg] := by
  unfold appendMessage
  rcases h with h | h
  · simp [h]
  · have hany : msgs.any (fun m => m.id == msg.id) = false := by
      simp only [List.any_eq_false]
      intro m hm
      simpa using h m hm
    simp [hany]

theorem appendMessage_dup (msgs : List ChatMessage) (msg : ChatMessage)
    (hid : msg.id ≠ "") (hmem : ∃ m ∈ msgs, m.id = msg.id) :
    appendMessage msgs msg = msgs := by
  unfold appendMessage
  have hany : msgs.any (fun m => m.id == msg.id) = true := by
    simp only [List.any_eq_true]
    rcases hmem with ⟨m, hm, he⟩
    exact ⟨m, hm, by simp [he]⟩
  simp [hany, hid]

theorem find_pred_congr {α : Type _} {p q : α → Bool} (l : List α)
    (h : ∀ a, p a = q a) : l.find? p = l.find? q := by
  induction l with
  | nil => rfl
  | cons a t ih =>
    rw [List.find?_cons, List.find?_cons, h a]
    cases q a
    · exact ih
    · rfl

theorem find_map_replace (perms : List (String × PermissionRequest))
    (rid : String) (req : PermissionRequest) :
    (perms.map (fun p => if p.1 == rid then (p.1, req) else p)).find?
        (fun p => p.1 == rid)
      = if perms.any (fun p => p.1 == rid) then some (rid, req) else none := by
  induction perms with
  | nil => simp
  | cons p rest ih =>
    by_cases hp : p.1 = rid
    · simp [List.find?, hp]
    · have hp2 : (p.1 == rid) = false := by simp [hp]
      rw [List.map_cons, if_neg (show ¬((p.1 == rid) = true) by simp [hp2]),
        List.find?_cons, hp2, List.any_cons, hp2, Bool.false_or]
      exact ih

theorem lookupPermission_add_self (perms : List (String × PermissionRequest))
    (req : PermissionRequest) :
    lookupPermission (addPermission perms req) req.request_id = some req := by
  unfold addPermission lookupPermission
  by_cases hany : perms.any (fun p => p.1 == req.request_id)
  · rw [if_pos hany, find_map_replace, if_pos hany]
    rfl
  · have hany2 : (perms.any fun p => p.1 == req.request_id) = false := by
      cases h : perms.any fun p => p.1 == req.request_id
      · rfl
      · exact absurd h hany
    rw [if_neg (by simp [hany2])]
    have hnone : perms.find? (fun p => p.1 == req.request_id) = none := by
      rw [List.find?_eq_none]
      intro x hx hcontra
      have hx2 : (perms.any fun p => p.1 == req.request_id) = true :=
        List.any_eq_true.mpr ⟨x, hx, hcontra⟩
      rw [hany2] at hx2
      exact absurd hx2 (by decide)
    rw [List.find?_append, hnone]
    simp [List.find?]

theorem lookupPermission_add_other (perms : List (String × PermissionRequest))
    (req : PermissionRequest) (rid : String) (hne : rid ≠ req.request_id) :
    lookupPermission (addPermission perms req) rid = lookupPermission perms rid := by
  have hne2 : req.request_id ≠ rid := Ne.symm hne
  unfold addPermission lookupPermission
  by_cases hany : perms.any (fun p => p.1 == req.request_id)
  · rw [if_pos hany]
    have hfind : (perms.map (fun p => if p.1 == req.request_id then (p.1, req) else p)).find?
        (fun p => p.1 == rid) = perms.find? (fun p => p.1 == rid) := by
      rw [List.find?_map]
      have hcomp : ((fun p : String × PermissionRequest => p.1 == rid) ∘
          (fun p => if p.1 == req.request_id then (p.1, req) else p))
          = (fun p : String × PermissionRequest => p.1 == rid) := by
        funext p
        by_cases hp : p.1 = req.request_id <;> simp [Function.comp, hp]
      rw [hcomp]
      cases hfound : perms.find? (fun p => p.1 == rid) with
      | none => rfl
      | some e =>
        have he := List.find?_some hfound
        have he2 : e.1 = rid := by simpa using he
        have hcond : ¬((e.1 == req.request_id) = true) := by
          simp only [beq_iff_eq, he2]
          exact hne
        show some (if e.1 == req.request_id then (e.1, req) else e) = some e
        rw [if_neg hcond]
    rw [hfind]
  · have hany2 : (perms.any fun p => p.1 == req.request_id) = false := by
      cases h : perms.any fun p => p.1 == req.request_id
      · rfl
      · exact absurd h hany
    rw [if_neg (by simp [hany2]), List.find?_append]
    have hb : (req.request_id == rid) = false := by
      simp [hne2]
    have hsingle : List.find? (fun p => p.1 == rid) [(req.request_id, req)] = none := by
      rw [List.find?_cons, hb]
      rfl
    rw [hsingle]
    simp

theorem lookupPermission_remove_self (perms : List (String × PermissionRequest))
    (rid : String) :
    lookupPermission (removePermission perms rid) rid = none := by
  unfold lookupPermission removePermission
  have : (perms.filter (fun p => p.1 != rid)).find? (fun p => p.1 == rid) = none := by
    rw [List.find?_eq_none]
    intro x hx
    have := List.of_mem_filter hx
    simpa using this
  simp [this]

theorem lookupPermission_remove_other (perms : List (String × PermissionRequest))
    (rid rid2 : String) (hne : rid2 ≠ rid) :
    lookupPermission (removePermission perms rid) rid2 = lookupPermission perms rid2 := by
  unfold removePermission lookupPermission
  refine congrArg (Option.map Prod.snd) ?_
  rw [List.find?_filter]
  refine find_pred_congr perms ?_
  intro a
  by_cases ha : a.1 = rid2
  · have h1 : (a.1 != rid) = true := by
      simp only [ha, bne_iff_ne, ne_eq]
      exact hne
    simp only [ha, h1]
    simp
    exact hne
  · simp [ha]

theorem extract_toolUse_noop (ts : TaskState) (tid : Option String)
    (nm : String) (inp : Option ToolInput)
    (hguard : (nm != "" && inp.isSome) = false) :
    extractTasksFromBlocks ts [ContentBlock.toolUse tid (some nm) inp] = ts := by
  simp only [Bool.and_eq_false_iff] at hguard
  rcases hguard with h | h
  · have : nm = "" := by simpa using h
    simp [extractTasksFromBlocks, extractTasksBlock, strTruthy, this]
  · have : inp = none := by
      cases inp with
      | none => rfl
      | some v => simp at h
    subst this
    simp [extractTasksFromBlocks, extractTasksBlock, strTruthy]

/-! ## Claim theorems -/

/-- C1: a line that is not valid JSON leaves the whole per-session state
unchanged and raises no exception (the embedded handler is a total function
whose malformed branch is the identity); a valid assistant frame processed
right after such a line appends exactly one message, provided its id is
blank or not already stored. -/
theorem malformed_line_resilience (s : SessionSlice) (msg : AssistantMessage)
    (pid : Option String) (n1 n2 : Nat)
    (hfresh : msg.id = "" ∨ ∀ m ∈ s.messages, m.id ≠ msg.id) :
    handleMessage s RawLine.malformed n1 = s
    ∧ (handleMessage (handleMessage s RawLine.malformed n1)
        (RawLine.frame (BrowserIncomingMessage.assistant msg pid)) n2).messages
      = s.messages ++ [assistantChatMessage msg pid n2]
    ∧ handleMessage (handleMessage s RawLine.malformed n1)
        (RawLine.frame (BrowserIncomingMessage.assistant msg pid)) n2
      = handleMessage s (RawLine.frame (BrowserIncomingMessage.assistant msg pid)) n2 := by
  refine ⟨rfl, ?_, rfl⟩
  show (handleFrame s (BrowserIncomingMessage.assistant msg pid) n2).messages = _
  have happ := appendMessage_fresh s.messages (assistantChatMessage msg pid n2)
    (by
      rcases hfresh with h | h
      · exact Or.inl (by simp [assistantChatMessage, h])
      · exact Or.inr (by simpa [assistantChatMessage] using h))
  simp only [handleFrame]
  split <;> split <;>
    simp [setStreaming, setSessionStatus, setStreamingStats, happ]

/-- C1 witness. -/
theorem malformed_line_resilience_witness :
    handleMessage {} RawLine.malformed 3 = {}
    ∧ (handleMessage (handleMessage {} RawLine.malformed 3)
        (RawLine.frame (BrowserIncomingMessage.assistant { id := "m1", content := [] } none)) 4).messages
      = [] ++ [assistantChatMessage { id := "m1", content := [] } none 4]
    ∧ handleMessage (handleMessage {} RawLine.malformed 3)
        (RawLine.frame (BrowserIncomingMessage.assistant { id := "m1", content := [] } none)) 4
      = handleMessage {} (RawLine.frame (BrowserIncomingMessage.assistant { id := "m1", content := [] } none)) 4 :=
  malformed_line_resilience {} { id := "m1", content := [] } none 3 4
    (Or.inr (by intro m hm; simp at hm))

/-- C3: message append deduplicates by id only when an id is present —
a second message with the same non-empty id is dropped and the first kept,
while two blank-id messages are both kept. -/
theorem append_message_dedup_by_id (msgs : List ChatMessage) (m1 m2 : ChatMessage)
    (hid : m1.id ≠ "") (heq : m2.id = m1.id)
    (hfresh : ∀ m ∈ msgs, m.id ≠ m1.id) :
    appendMessage (appendMessage msgs m1) m2 = msgs ++ [m1]
    ∧ ∀ b1 b2 : ChatMessage, b1.id = "" → b2.id = "" →
        appendMessage (appendMessage msgs b1) b2 = msgs ++ [b1, b2] := by
  constructor
  · have h1 : appendMessage msgs m1 = msgs ++ [m1] :=
      appendMessage_fresh msgs m1 (Or.inr hfresh)
    rw [h1]
    exact appendMessage_dup (msgs ++ [m1]) m2 (by rw [heq]; exact hid)
      ⟨m1, by simp, heq.symm⟩
  · intro b1 b2 h1 h2
    rw [appendMessage_fresh msgs b1 (Or.inl h1),
      appendMessage_fresh (msgs ++ [b1]) b2 (Or.inl h2)]
    simp

/-- C3 witness. -/
theorem append_message_dedup_by_id_witness :
    appendMessage (appendMessage []
        { id := "a", role := Role.user, content := "x", timestamp := 0 })
        { id := "a", role := Role.user, content := "y", timestamp := 1 }
      = [] ++ [{ id := "a", role := Role.user, content := "x", timestamp := 0 }]
    ∧ appendMessage (appendMessage []
        { id := "", role := Role.user, content := "x", timestamp := 0 })
        { id := "", role := Role.user, content := "y", timestamp := 1 }
      = [] ++ [{ id := "", role := Role.user, content := "x", timestamp := 0 },
               { id := "", role := Role.user, content := "y", timestamp := 1 }] := by
  have h := append_message_dedup_by_id []
    { id := "a", role := Role.user, content := "x", timestamp := 0 }
    { id := "a", role := Role.user, content := "y", timestamp := 1 }
    (by decide) rfl (by intro m hm; simp at hm)
  exact ⟨h.1, h.2 _ _ rfl rfl⟩

/-- C7: a permission-request frame inserts the request keyed by its request
id, leaves the other pending entries alone, and applies the task-derivation
rule to the synthesized tool-use block of the request; a cancellation frame
removes exactly that request id from the pending map. -/
theorem permission_request_insert_and_cancel (s : SessionSlice)
    (req : PermissionRequest) (rid : String) (n1 n2 : Nat) :
    lookupPermission (handleMessage s
        (RawLine.frame (BrowserIncomingMessage.permissionRequest req)) n1).pendingPermissions
        req.request_id = some req
    ∧ (∀ rid2, rid2 ≠ req.request_id →
        lookupPermission (handleMessage s
          (RawLine.frame (BrowserIncomingMessage.permissionRequest req)) n1).pendingPermissions
          rid2 = lookupPermission s.pendingPermissions rid2)
    ∧ (handleMessage s
        (RawLine.frame (BrowserIncomingMessage.permissionRequest req)) n1).tasks
      = extractTasksFromBlocks s.tasks
          [ContentBlock.toolUse req.tool_use_id (some req.tool_name) req.input]
    ∧ lookupPermission (handleMessage s
        (RawLine.frame (BrowserIncomingMessage.permissionCancelled rid)) n2).pendingPermissions
        rid = none
    ∧ (∀ rid3, rid3 ≠ rid →
        lookupPermission (handleMessage s
          (RawLine.frame (BrowserIncomingMessage.permissionCancelled rid)) n2).pendingPermissions
          rid3 = lookupPermission s.pendingPermissions rid3) := by
  refine ⟨?_, ?_, ?_, ?_, ?_⟩
  · show lookupPermission (handleFrame s (BrowserIncomingMessage.permissionRequest req) n1).pendingPermissions req.request_id = some req
    simp only [handleFrame]
    split <;> simpa using lookupPermission_add_self s.pendingPermissions req
  · intro rid2 hne
    show lookupPermission (handleFrame s (BrowserIncomingMessage.permissionRequest req) n1).pendingPermissions rid2 = _
    simp only [handleFrame]
    split <;> simpa using lookupPermission_add_other s.pendingPermissions req rid2 hne
  · show (handleFrame s (BrowserIncomingMessage.permissionRequest req) n1).tasks = _
    simp only [handleFrame]
    split
    · rfl
    · rename_i hguard
      rw [extract_toolUse_noop s.tasks req.tool_use_id req.tool_name req.input
        (by simpa using hguard)]
  · exact lookupPermission_remove_self s.pendingPermissions rid
  · intro rid3 hne
    exact lookupPermission_remove_other s.pendingPermissions rid rid3 hne

/-- C7 witness. -/
theorem permission_request_insert_and_cancel_witness :
    lookupPermission (handleMessage {}
        (RawLine.frame (BrowserIncomingMessage.permissionRequest { request_id := "r1" })) 0).pendingPermissions
        "r1" = some { request_id := "r1" }
    ∧ lookupPermission (handleMessage {}
        (RawLine.frame (BrowserIncomingMessage.permissionRequest { request_id := "r1" })) 0).pendingPermissions
        "r2" = lookupPermission ({} : SessionSlice).pendingPermissions "r2"
    ∧ lookupPermission (handleMessage {}
        (RawLine.frame (BrowserIncomingMessage.permissionCancelled "rX")) 1).pendingPermissions
        "rX" = none := by
  have h := permission_request_insert_and_cancel {} { request_id := "r1" } "rX" 0 1
  exact ⟨h.1, h.2.1 "r2" (by decide), h.2.2.2.1⟩

theorem handleAssistant_tasks (s : SessionSlice) (msg : AssistantMessage)
    (pid : Option String) (now : Nat) :
    (handleMessage s (RawLine.frame (BrowserIncomingMessage.assistant msg pid)) now).tasks
      = if msg.content.length != 0 then extractTasksFromBlocks s.tasks msg.content
        else s.tasks := by
  show (handleFrame s (BrowserIncomingMessage.assistant msg pid) now).tasks = _
  simp only [handleFrame]
  split <;> split <;> simp [setStreaming, setSessionStatus, setStreamingStats]

theorem extract_taskCreate_new (ts : TaskState) (tid : String) (inp : ToolInput)
    (htid : tid ≠ "") (h : tid ∉ ts.processedToolUseIds) :
    extractTasksFromBlocks ts
        [ContentBlock.toolUse (some tid) (some "TaskCreate") (some inp)]
      = { sessionTasks := ts.sessionTasks ++
            [{ id := toString (ts.taskCounter.getD 0 + 1)
               subject := strOr inp.subject "Task"
               description := strOr inp.description ""
               activeForm := inp.activeForm
               status := "pending" }]
          taskCounter := some (ts.taskCounter.getD 0 + 1)
          processedToolUseIds := ts.processedToolUseIds ++ [tid] } := by
  have hc : ts.processedToolUseIds.contains tid = false := by simp [h]
  have ht : (tid != "") = true := by simp [htid]
  simp only [extractTasksFromBlocks, List.foldl, extractTasksBlock, strTruthy,
    dispatchTaskTool, hc, ht]
  simp [h]

theorem extract_taskCreate_processed (ts : TaskState) (tid : String) (inp : ToolInput)
    (htid : tid ≠ "") (h : tid ∈ ts.processedToolUseIds) :
    extractTasksFromBlocks ts
        [ContentBlock.toolUse (some tid) (some "TaskCreate") (some inp)] = ts := by
  have hc : ts.processedToolUseIds.contains tid = true := by simp [h]
  have ht : (tid != "") = true := by simp [htid]
  simp [extractTasksFromBlocks, extractTasksBlock, strTruthy, hc, ht, h]

/-- C2: task derivation is idempotent per tool invocation id — two assistant
frames both carrying a tool-use block with the same non-empty invocation id
and the task-creating tool name add exactly one task, and the second frame
performs no task mutation at all (task list, counter and processed set all
unchanged). -/
theorem task_create_idempotent_by_invocation_id
    (s : SessionSlice) (tid : String) (inp : ToolInput)
    (m1 m2 : AssistantMessage) (p1 p2 : Option String) (n1 n2 : Nat)
    (htid : tid ≠ "") (hproc : tid ∉ s.tasks.processedToolUseIds)
    (hm1 : m1.content = [ContentBlock.toolUse (some tid) (some "TaskCreate") (some inp)])
    (hm2 : m2.content = [ContentBlock.toolUse (some tid) (some "TaskCreate") (some inp)]) :
    (handleMessage s (RawLine.frame (BrowserIncomingMessage.assistant m1 p1)) n1).tasks.sessionTasks
      = s.tasks.sessionTasks ++
          [{ id := toString (s.tasks.taskCounter.getD 0 + 1)
             subject := strOr inp.subject "Task"
             description := strOr inp.description ""
             activeForm := inp.activeForm
             status := "pending" }]
    ∧ (handleMessage
          (handleMessage s (RawLine.frame (BrowserIncomingMessage.assistant m1 p1)) n1)
          (RawLine.frame (BrowserIncomingMessage.assistant m2 p2)) n2).tasks
      = (handleMessage s (RawLine.frame (BrowserIncomingMessage.assistant m1 p1)) n1).tasks := by
  have h1 : (handleMessage s (RawLine.frame (BrowserIncomingMessage.assistant m1 p1)) n1).tasks
      = extractTasksFromBlocks s.tasks m1.content := by
    rw [handleAssistant_tasks, if_pos (by simp [hm1])]
  have h1e : (handleMessage s (RawLine.frame (BrowserIncomingMessage.assistant m1 p1)) n1).tasks
      = { sessionTasks := s.tasks.sessionTasks ++
            [{ id := toString (s.tasks.taskCounter.getD 0 + 1)
               subject := strOr inp.subject "Task"
               description := strOr inp.description ""
               activeForm := inp.activeForm
               status := "pending" }]
          taskCounter := some (s.tasks.taskCounter.getD 0 + 1)
          processedToolUseIds := s.tasks.processedToolUseIds ++ [tid] } := by
    rw [h1, hm1, extract_taskCreate_new s.tasks tid inp htid hproc]
  constructor
  · rw [h1e]
  · rw [handleAssistant_tasks, if_pos (by simp [hm2]), hm2]
    apply extract_taskCreate_processed _ tid inp htid
    rw [h1e]
    simp

/-- C2 witness. -/
theorem task_create_idempotent_by_invocation_id_witness :
    (handleMessage {}
        (RawLine.frame (BrowserIncomingMessage.assistant
          { id := "a",
            content := [ContentBlock.toolUse (some "t1") (some "TaskCreate") (some {})] }
          none)) 1).tasks.sessionTasks
      = [{ id := "1", subject := "Task", description := "", activeForm := none,
           status := "pending" }]
    ∧ (handleMessage
          (handleMessage {}
            (RawLine.frame (BrowserIncomingMessage.assistant
              { id := "a",
                content := [ContentBlock.toolUse (some "t1") (some "TaskCreate") (some {})] }
              none)) 1)
          (RawLine.frame (BrowserIncomingMessage.assistant
            { id := "b",
              content := [ContentBlock.toolUse (some "t1") (some "TaskCreate") (some {})] }
            none)) 2).tasks
      = (handleMessage {}
          (RawLine.frame (BrowserIncomingMessage.assistant
            { id := "a",
              content := [ContentBlock.toolUse (some "t1") (some "TaskCreate") (some {})] }
            none)) 1).tasks := by
  have h := task_create_idempotent_by_invocation_id {} "t1" {}
    { id := "a", content := [ContentBlock.toolUse (some "t1") (some "TaskCreate") (some {})] }
    { id := "b", content := [ContentBlock.toolUse (some "t1") (some "TaskCreate") (some {})] }
    none none 1 2 (by decide) (by simp) rfl rfl
  refine ⟨?_, h.2⟩
  rw [h.1]
  rfl

/-- C8 counterexample: a completed assistant frame does NOT clear the whole
streaming scratch state.  On a session with a start timestamp of 5 and an
output-token counter of 42, handling an assistant frame leaves both intact
(only the text accumulator is cleared), refuting the claim that all three
scratch fields are cleared whenever a completed assistant message arrives. -/
theorem assistant_keeps_scratch_counterexample :
    (handleMessage
        { streaming := some "buf", streamingStartedAt := some 5,
          streamingOutputTokens := some 42 }
        (RawLine.frame (BrowserIncomingMessage.assistant { id := "m3", content := [] } none))
        100).streamingOutputTokens = some 42
    ∧ (handleMessage
        { streaming := some "buf", streamingStartedAt := some 5,
          streamingOutputTokens := some 42 }
        (RawLine.frame (BrowserIncomingMessage.assistant { id := "m3", content := [] } none))
        100).streamingStartedAt = some 5
    ∧ (handleMessage
        { streaming := some "buf", streamingStartedAt := some 5,
          streamingOutputTokens := some 42 }
        (RawLine.frame (BrowserIncomingMessage.assistant { id := "m3", content := [] } none))
        100).streaming = none := ⟨rfl, rfl, rfl⟩

/-- C8 as amended: after a result frame the text accumulator, start
timestamp and output-token counter are all empty regardless of prior
content; a completed assistant message clears only the in-progress text
accumulator (the counter is untouched and the timestamp is set when absent
rather than cleared, witness the counterexample); and stream-event deltas
are never written into the persisted message history. -/
theorem streaming_scratch_finalization (s : SessionSlice) (r : ResultData)
    (msg : AssistantMessage) (pid : Option String) (evt : Option StreamEvent)
    (now : Nat) :
    (handleMessage s (RawLine.frame (BrowserIncomingMessage.result r)) now).streaming = none
    ∧ (handleMessage s (RawLine.frame (BrowserIncomingMessage.result r)) now).streamingStartedAt
        = none
    ∧ (handleMessage s (RawLine.frame (BrowserIncomingMessage.result r)) now).streamingOutputTokens
        = none
    ∧ (handleMessage s (RawLine.frame (BrowserIncomingMessage.assistant msg pid)) now).streaming
        = none
    ∧ (handleMessage s (RawLine.frame (BrowserIncomingMessage.streamEvent evt)) now).messages
        = s.messages := by
  refine ⟨?_, ?_, ?_, ?_, ?_⟩
  · show (handleFrame s (BrowserIncomingMessage.result r) now).streaming = none
    simp only [handleFrame]
    split <;> simp [setStreaming, setStreamingStats, setSessionStatus]
  · show (handleFrame s (BrowserIncomingMessage.result r) now).streamingStartedAt = none
    simp only [handleFrame]
    split <;> simp [setStreaming, setStreamingStats, setSessionStatus]
  · show (handleFrame s (BrowserIncomingMessage.result r) now).streamingOutputTokens = none
    simp only [handleFrame]
    split <;> simp [setStreaming, setStreamingStats, setSessionStatus]
  · show (handleFrame s (BrowserIncomingMessage.assistant msg pid) now).streaming = none
    simp only [handleFrame]
    split <;> split <;> simp [setStreaming, setStreamingStats, setSessionStatus]
  · show (handleFrame s (BrowserIncomingMessage.streamEvent evt) now).messages = s.messages
    cases evt with
    | none => rfl
    | some e =>
      cases e with
      | messageStart =>
        simp only [handleFrame]
        split <;> simp [setStreamingStats]
      | contentBlockDelta delta =>
        cases delta with
        | none => rfl
        | some d => cases d <;> simp [handleFrame, setStreaming]
      | messageDelta usage =>
        cases usage with
        | none => rfl
        | some u =>
          cases hu : u.output_tokens with
          | none => simp [handleFrame, hu]
          | some n =>
            simp only [handleFrame, hu]
            split <;> simp [setStreamingStats]
      | otherEvent => rfl

theorem addSubscription_cons_eq (q : PushSubscriptionData)
    (rest : List PushSubscriptionData) (sub : PushSubscriptionData)
    (hq : (q.endpoint == sub.endpoint) = true) :
    addSubscription (q :: rest) sub = sub :: rest := by
  unfold addSubscription
  simp [List.findIdx?_cons, hq, List.set]

theorem addSubscription_cons_ne (q : PushSubscriptionData)
    (rest : List PushSubscriptionData) (sub : PushSubscriptionData)
    (hq : (q.endpoint == sub.endpoint) = false) :
    addSubscription (q :: rest) sub = q :: addSubscription rest sub := by
  unfold addSubscription
  simp only [List.findIdx?_cons, List.findIdx?_succ, hq]
  cases hrest : rest.findIdx? (fun s => s.endpoint == sub.endpoint) with
  | none => rfl
  | some i => rfl

theorem addSubscription_replace (subs : List PushSubscriptionData)
    (sub : PushSubscriptionData)
    (hpresent : subs.any (fun q => q.endpoint == sub.endpoint) = true) :
    (addSubscription subs sub).length = subs.length
    ∧ (addSubscription subs sub).find? (fun q => q.endpoint == sub.endpoint)
        = some sub := by
  induction subs with
  | nil => simp at hpresent
  | cons q rest ih =>
    cases hq : (q.endpoint == sub.endpoint) with
    | true =>
      rw [addSubscription_cons_eq q rest sub hq]
      refine ⟨by simp, ?_⟩
      rw [List.find?_cons_of_pos _ (by simp)]
    | false =>
      have hrest : rest.any (fun q => q.endpoint == sub.endpoint) = true := by
        rw [List.any_cons, hq, Bool.false_or] at hpresent
        exact hpresent
      rw [addSubscription_cons_ne q rest sub hq]
      obtain ⟨ihl, ihf⟩ := ih hrest
      refine ⟨by simp [ihl], ?_⟩
      rw [List.find?_cons_of_neg _ (by simp [hq]), ihf]

/-- C9: at most one push subscription per endpoint — adding a subscription
whose endpoint is already stored replaces that entry in place (count
unchanged, the stored entry under that endpoint is exactly the new one), and
removing an unknown endpoint reports false and leaves the stored list
untouched. -/
theorem push_subscription_endpoint_unique
    (subs : List PushSubscriptionData) (sub : PushSubscriptionData) (endpoint : String)
    (hpresent : subs.any (fun q => q.endpoint == sub.endpoint) = true)
    (habsent : ∀ q ∈ subs, q.endpoint ≠ endpoint) :
    (addSubscription subs sub).length = subs.length
    ∧ (addSubscription subs sub).find? (fun q => q.endpoint == sub.endpoint) = some sub
    ∧ removeSubscription subs endpoint = (subs, false) := by
  obtain ⟨h1, h2⟩ := addSubscription_replace subs sub hpresent
  refine ⟨h1, h2, ?_⟩
  unfold removeSubscription
  have hfilter : subs.filter (fun q => q.endpoint != endpoint) = subs :=
    List.filter_eq_self.mpr (by intro q hq; simp [habsent q hq])
  simp [hfilter]

/-- C9 witness. -/
theorem push_subscription_endpoint_unique_witness :
    (addSubscription
        [{ endpoint := "e1", keys := { p256dh := "k1", auth := "a1" } },
         { endpoint := "e2", keys := { p256dh := "k2", auth := "a2" } }]
        { endpoint := "e1", keys := { p256dh := "K", auth := "A" } }).length
      = ([{ endpoint := "e1", keys := { p256dh := "k1", auth := "a1" } },
          { endpoint := "e2", keys := { p256dh := "k2", auth := "a2" } }] :
            List PushSubscriptionData).length
    ∧ (addSubscription
        [{ endpoint := "e1", keys := { p256dh := "k1", auth := "a1" } },
         { endpoint := "e2", keys := { p256dh := "k2", auth := "a2" } }]
        { endpoint := "e1", keys := { p256dh := "K", auth := "A" } }).find?
          (fun q => q.endpoint == "e1")
      = some { endpoint := "e1", keys := { p256dh := "K", auth := "A" } }
    ∧ removeSubscription
        [{ endpoint := "e1", keys := { p256dh := "k1", auth := "a1" } },
         { endpoint := "e2", keys := { p256dh := "k2", auth := "a2" } }] "eX"
      = ([{ endpoint := "e1", keys := { p256dh := "k1", auth := "a1" } },
          { endpoint := "e2", keys := { p256dh := "k2", auth := "a2" } }], false) :=
  push_subscription_endpoint_unique
    [{ endpoint := "e1", keys := { p256dh := "k1", auth := "a1" } },
     { endpoint := "e2", keys := { p256dh := "k2", auth := "a2" } }]
    { endpoint := "e1", keys := { p256dh := "K", auth := "A" } } "eX"
    (by decide) (by decide)

/-- C10: sendPushToAll prunes exactly the permanently failed subscriptions —
an entry whose send rejects with status 410 or 404 is dropped from the
stored list; an entry whose send has any other outcome (success, another
status such as 500, or no status at all) stays stored when its endpoint is
unique among the expired ones; and the operation is a total function whose
result is always a selection of the stored entries (every per-entry failure
is caught, none escapes). -/
theorem send_push_prunes_expired
    (subs : List PushSubscriptionData) (send : PushSubscriptionData → SendOutcome)
    (sub : PushSubscriptionData) (hmem : sub ∈ subs) :
    (isExpiredOutcome (send sub) = true →
      ∀ q ∈ sendPushToAll subs send, q.endpoint ≠ sub.endpoint)
    ∧ (isExpiredOutcome (send sub) = false →
        (∀ q ∈ subs, q.endpoint = sub.endpoint → isExpiredOutcome (send q) = false) →
        sub ∈ sendPushToAll subs send)
    ∧ (∀ q ∈ sendPushToAll subs send, q ∈ subs) := by
  have hlen : (subs.length == 0) = false := by
    cases subs with
    | nil => simp at hmem
    | cons a t => simp
  refine ⟨?_, ?_, ?_⟩
  · intro hexp q hq
    have hsubmem : sub.endpoint ∈
        (subs.filter (fun x => isExpiredOutcome (send x))).map
          (fun x => x.endpoint) := by
      exact List.mem_map_of_mem _ (List.mem_filter.mpr ⟨hmem, hexp⟩)
    have hne : ((subs.filter (fun x => isExpiredOutcome (send x))).map
        (fun x => x.endpoint)).length ≠ 0 := by
      intro h0
      rw [List.length_eq_zero] at h0
      rw [h0] at hsubmem
      simp at hsubmem
    unfold sendPushToAll at hq
    rw [hlen] at hq
    simp only [Bool.false_eq_true, if_false] at hq
    rw [if_pos (by simpa using hne)] at hq
    have := List.mem_filter.mp hq
    intro hcontra
    rw [hcontra] at this
    simp [hsubmem] at this
  · intro hexp hunique
    have hout : sub.endpoint ∉
        (subs.filter (fun x => isExpiredOutcome (send x))).map
          (fun x => x.endpoint) := by
      intro hin
      obtain ⟨x, hx, hxe⟩ := List.mem_map.mp hin
      obtain ⟨hxs, hxexp⟩ := List.mem_filter.mp hx
      have := hunique x hxs hxe
      rw [this] at hxexp
      exact absurd hxexp (by decide)
    unfold sendPushToAll
    rw [hlen]
    simp only [Bool.false_eq_true, if_false]
    by_cases hel : ((subs.filter (fun x => isExpiredOutcome (send x))).map
        (fun x => x.endpoint)).length ≠ 0
    · rw [if_pos (by simpa using hel)]
      exact List.mem_filter.mpr ⟨hmem, by simp [hout]⟩
    · rw [if_neg (by simpa using hel)]
      exact hmem
  · intro q hq
    unfold sendPushToAll at hq
    rw [hlen] at hq
    simp only [Bool.false_eq_true, if_false] at hq
    by_cases hel : ((subs.filter (fun x => isExpiredOutcome (send x))).map
        (fun x => x.endpoint)).length ≠ 0
    · rw [if_pos (by simpa using hel)] at hq
      exact (List.mem_filter.mp hq).1
    · rw [if_neg (by simpa using hel)] at hq
      exact hq

/-- C10 witness. -/
theorem send_push_prunes_expired_witness :
    (∀ q ∈ sendPushToAll
        [{ endpoint := "e1" }, { endpoint := "e2" }, { endpoint := "e3" }]
        (fun s => if s.endpoint == "e1" then SendOutcome.failed (some 410)
          else if s.endpoint == "e2" then SendOutcome.failed (some 500)
          else SendOutcome.ok),
      q.endpoint ≠ "e1")
    ∧ ({ endpoint := "e2" } : PushSubscriptionData) ∈ sendPushToAll
        [{ endpoint := "e1" }, { endpoint := "e2" }, { endpoint := "e3" }]
        (fun s => if s.endpoint == "e1" then SendOutcome.failed (some 410)
          else if s.endpoint == "e2" then SendOutcome.failed (some 500)
          else SendOutcome.ok) := by
  have h1 := send_push_prunes_expired
    [{ endpoint := "e1" }, { endpoint := "e2" }, { endpoint := "e3" }]
    (fun s => if s.endpoint == "e1" then SendOutcome.failed (some 410)
      else if s.endpoint == "e2" then SendOutcome.failed (some 500)
      else SendOutcome.ok)
    { endpoint := "e1" } (by decide)
  have h2 := send_push_prunes_expired
    [{ endpoint := "e1" }, { endpoint := "e2" }, { endpoint := "e3" }]
    (fun s => if s.endpoint == "e1" then SendOutcome.failed (some 410)
      else if s.endpoint == "e2" then SendOutcome.failed (some 500)
      else SendOutcome.ok)
    { endpoint := "e2" } (by decide)
  exact ⟨h1.1 (by decide), h2.2.1 (by decide) (by decide)⟩

theorem relaunchRun_cons (g : RelaunchGuardState) (e : RelaunchEvent)
    (rest : List RelaunchEvent) :
    relaunchRun g (e :: rest)
      = (relaunchStep g e).2 ++ relaunchRun (relaunchStep g e).1 rest := rfl

theorem relaunchStep_sessions (g : RelaunchGuardState) (e : RelaunchEvent) :
    (relaunchStep g e).1.sessions = g.sessions := by
  cases e with
  | relaunchNeeded sid =>
    simp only [relaunchStep]
    repeat' split
    all_goals rfl
  | cooldownExpired sid => rfl

theorem contains_true_of_mem {l : List String} {a : String} (h : a ∈ l) :
    l.contains a = true := by simp [h]

theorem relaunchStep_needed_eligible (g : RelaunchGuardState) (sid2 : String)
    (info : LauncherSessionInfo)
    (hnotin : sid2 ∉ g.relaunchingSet)
    (hg : getSession g.sessions sid2 = some info)
    (harch : info.archived = false)
    (hst : info.state ≠ LauncherState.starting) :
    relaunchStep g (RelaunchEvent.relaunchNeeded sid2)
      = (⟨g.relaunchingSet ++ [sid2], g.sessions⟩, [sid2]) := by
  simp [relaunchStep, hnotin, hg, harch, hst]

theorem relaunchStep_needed_cases (g : RelaunchGuardState) (sid2 : String) :
    relaunchStep g (RelaunchEvent.relaunchNeeded sid2) = (g, [])
    ∨ (sid2 ∉ g.relaunchingSet
       ∧ relaunchStep g (RelaunchEvent.relaunchNeeded sid2)
           = (⟨g.relaunchingSet ++ [sid2], g.sessions⟩, [sid2])) := by
  by_cases hin : sid2 ∈ g.relaunchingSet
  · left
    simp [relaunchStep, hin]
  · cases hg : getSession g.sessions sid2 with
    | none =>
      left
      simp [relaunchStep, hin, hg]
    | some info =>
      cases harch : info.archived with
      | true =>
        left
        simp [relaunchStep, hin, hg, harch]
      | false =>
        by_cases hst : info.state = LauncherState.starting
        · left
          simp [relaunchStep, hin, hg, harch, hst]
        · right
          exact ⟨hin, relaunchStep_needed_eligible g sid2 info hin hg harch hst⟩

theorem relaunchStep_cooldown (g : RelaunchGuardState) (sid2 : String) :
    relaunchStep g (RelaunchEvent.cooldownExpired sid2)
      = (⟨g.relaunchingSet.filter (fun x => x != sid2), g.sessions⟩, []) := rfl

theorem relaunchRun_inset_zero (sid : String) (events : List RelaunchEvent) :
    ∀ g : RelaunchGuardState, sid ∈ g.relaunchingSet →
      RelaunchEvent.cooldownExpired sid ∉ events →
      (relaunchRun g events).count sid = 0 := by
  induction events with
  | nil => intro g _ _; rfl
  | cons e rest ih =>
    intro g hin hnocd
    have hnr : RelaunchEvent.cooldownExpired sid ∉ rest :=
      fun h => hnocd (List.mem_cons_of_mem _ h)
    rw [relaunchRun_cons]
    cases e with
    | relaunchNeeded sid2 =>
      rcases relaunchStep_needed_cases g sid2 with hstep | ⟨hnotin, hstep⟩
      · rw [hstep]
        simpa using ih g hin hnr
      · have hne : sid2 ≠ sid := fun h => hnotin (by rw [h]; exact hin)
        rw [hstep]
        have hrest0 := ih ⟨g.relaunchingSet ++ [sid2], g.sessions⟩
          (List.mem_append_left _ hin) hnr
        simp [List.count_cons, hne, hrest0]
    | cooldownExpired sid2 =>
      have hne : sid2 ≠ sid := by
        intro h
        rw [h] at hnocd
        exact hnocd (List.mem_cons_self _ _)
      rw [relaunchStep_cooldown]
      have hin2 : sid ∈ g.relaunchingSet.filter (fun x => x != sid2) := by
        rw [List.mem_filter]
        exact ⟨hin, by simp [Ne.symm hne]⟩
      simpa using ih ⟨g.relaunchingSet.filter (fun x => x != sid2), g.sessions⟩ hin2 hnr

theorem relaunchRun_le_one (sid : String) (events : List RelaunchEvent) :
    ∀ g : RelaunchGuardState,
      RelaunchEvent.cooldownExpired sid ∉ events →
      (relaunchRun g events).count sid ≤ 1 := by
  induction events with
  | nil => intro g _; simp [relaunchRun]
  | cons e rest ih =>
    intro g hnocd
    have hnr : RelaunchEvent.cooldownExpired sid ∉ rest :=
      fun h => hnocd (List.mem_cons_of_mem _ h)
    rw [relaunchRun_cons]
    cases e with
    | relaunchNeeded sid2 =>
      rcases relaunchStep_needed_cases g sid2 with hstep | ⟨hnotin, hstep⟩
      · rw [hstep]
        simpa using ih g hnr
      · rw [hstep]
        by_cases hne : sid2 = sid
        · subst hne
          have h0 := relaunchRun_inset_zero sid2 rest
            ⟨g.relaunchingSet ++ [sid2], g.sessions⟩
            (List.mem_append_right _ (List.mem_cons_self _ _)) hnr
          simp [List.count_append, List.count_cons, h0]
        · have hrest := ih ⟨g.relaunchingSet ++ [sid2], g.sessions⟩ hnr
          simpa [List.count_append, List.count_cons, hne] using hrest
    | cooldownExpired sid2 =>
      rw [relaunchStep_cooldown]
      simpa using ih ⟨g.relaunchingSet.filter (fun x => x != sid2), g.sessions⟩ hnr

theorem relaunchRun_eq_one (sid : String) (events : List RelaunchEvent) :
    ∀ (g : RelaunchGuardState) (info : LauncherSessionInfo),
      sid ∉ g.relaunchingSet →
      getSession g.sessions sid = some info →
      info.archived = false →
      info.state ≠ LauncherState.starting →
      RelaunchEvent.cooldownExpired sid ∉ events →
      RelaunchEvent.relaunchNeeded sid ∈ events →
      (relaunchRun g events).count sid = 1 := by
  induction events with
  | nil =>
    intro g info _ _ _ _ _ hmem
    simp at hmem
  | cons e rest ih =>
    intro g info hnotin hget harch hstate hnocd hmem
    have hnr : RelaunchEvent.cooldownExpired sid ∉ rest :=
      fun h => hnocd (List.mem_cons_of_mem _ h)
    rw [relaunchRun_cons]
    by_cases he : e = RelaunchEvent.relaunchNeeded sid
    · subst he
      have hstep := relaunchStep_needed_eligible g sid info hnotin hget harch hstate
      rw [hstep]
      have h0 := relaunchRun_inset_zero sid rest
        ⟨g.relaunchingSet ++ [sid], g.sessions⟩
        (List.mem_append_right _ (List.mem_cons_self _ _)) hnr
      simp [List.count_append, List.count_cons, h0]
    · have hmem2 : RelaunchEvent.relaunchNeeded sid ∈ rest := by
        cases List.mem_cons.mp hmem with
        | inl h => exact absurd h.symm he
        | inr h => exact h
      cases e with
      | relaunchNeeded sid2 =>
        have hne2 : sid2 ≠ sid := fun h => he (by rw [h])
        rcases relaunchStep_needed_cases g sid2 with hstep | ⟨hnotin2, hstep⟩
        · rw [hstep]
          simpa using ih g info hnotin hget harch hstate hnr hmem2
        · rw [hstep]
          have hnotin3 : sid ∉ g.relaunchingSet ++ [sid2] := by
            intro h
            rcases List.mem_append.mp h with h | h
            · exact hnotin h
            · rw [List.mem_singleton] at h
              exact hne2 h.symm
          have hrest := ih ⟨g.relaunchingSet ++ [sid2], g.sessions⟩ info hnotin3 hget
            harch hstate hnr hmem2
          simpa [List.count_append, List.count_cons, hne2] using hrest
      | cooldownExpired sid2 =>
        rw [relaunchStep_cooldown]
        have hnotin3 : sid ∉ g.relaunchingSet.filter (fun x => x != sid2) :=
          fun h => hnotin (List.mem_of_mem_filter h)
        simpa using ih ⟨g.relaunchingSet.filter (fun x => x != sid2), g.sessions⟩ info
          hnotin3 hget harch hstate hnr hmem2

/-- C5: the auto-relaunch guard is idempotent under overlapping triggers —
along any event timeline without a cooldown expiration for a session id, at
most one relaunch call fires for it; and when the session is eligible (not
already relaunching, known to the launcher, not archived, not already
starting), a timeline containing a relaunch-needed event for it produces
exactly one relaunch call. -/
theorem relaunch_idempotent_under_overlap
    (g : RelaunchGuardState) (sid : String) (events : List RelaunchEvent)
    (hnocd : RelaunchEvent.cooldownExpired sid ∉ events) :
    (relaunchRun g events).count sid ≤ 1
    ∧ (∀ info : LauncherSessionInfo, sid ∉ g.relaunchingSet →
        getSession g.sessions sid = some info →
        info.archived = false →
        info.state ≠ LauncherState.starting →
        RelaunchEvent.relaunchNeeded sid ∈ events →
        (relaunchRun g events).count sid = 1) :=
  ⟨relaunchRun_le_one sid events g hnocd,
   fun info hnotin hget harch hstate hmem =>
     relaunchRun_eq_one sid events g info hnotin hget harch hstate hnocd hmem⟩

/-- C5 witness: two overlapping relaunch-needed events, one spawned call. -/
theorem relaunch_idempotent_under_overlap_witness :
    (relaunchRun ⟨[], [⟨"s1", LauncherState.stopped, false⟩]⟩
        [RelaunchEvent.relaunchNeeded "s1", RelaunchEvent.relaunchNeeded "s1"]).count "s1"
      ≤ 1
    ∧ (relaunchRun ⟨[], [⟨"s1", LauncherState.stopped, false⟩]⟩
        [RelaunchEvent.relaunchNeeded "s1", RelaunchEvent.relaunchNeeded "s1"]).count "s1"
      = 1 := by
  have h := relaunch_idempotent_under_overlap
    ⟨[], [⟨"s1", LauncherState.stopped, false⟩]⟩ "s1"
    [RelaunchEvent.relaunchNeeded "s1", RelaunchEvent.relaunchNeeded "s1"]
    (by decide)
  exact ⟨h.1, h.2 ⟨"s1", LauncherState.stopped, false⟩ (by simp) rfl rfl
    (by decide) (by decide)⟩

theorem relaunchRun_archived_zero (sid : String) (events : List RelaunchEvent) :
    ∀ (g : RelaunchGuardState) (info : LauncherSessionInfo),
      getSession g.sessions sid = some info → info.archived = true →
      (relaunchRun g events).count sid = 0 := by
  induction events with
  | nil => intro g info _ _; rfl
  | cons e rest ih =>
    intro g info hget harch
    rw [relaunchRun_cons]
    cases e with
    | relaunchNeeded sid2 =>
      by_cases hne : sid2 = sid
      · subst hne
        have hstep : relaunchStep g (RelaunchEvent.relaunchNeeded sid2) = (g, []) := by
          by_cases hin : sid2 ∈ g.relaunchingSet
          · simp [relaunchStep, hin]
          · simp [relaunchStep, hin, hget, harch]
        rw [hstep]
        simpa using ih g info hget harch
      · rcases relaunchStep_needed_cases g sid2 with hstep | ⟨hnotin2, hstep⟩
        · rw [hstep]
          simpa using ih g info hget harch
        · rw [hstep]
          have hrest := ih ⟨g.relaunchingSet ++ [sid2], g.sessions⟩ info hget harch
          simpa [List.count_append, List.count_cons, hne] using hrest
    | cooldownExpired sid2 =>
      rw [relaunchStep_cooldown]
      simpa using ih ⟨g.relaunchingSet.filter (fun x => x != sid2), g.sessions⟩ info
        hget harch

theorem watchdogRun_cons (sessions : List LauncherSessionInfo) (e : WatchdogEvent)
    (rest : List WatchdogEvent) :
    watchdogRun sessions (e :: rest)
      = (watchdogStep sessions e).2 ++ watchdogRun (watchdogStep sessions e).1 rest := rfl

theorem markConnected_archived (sessions : List LauncherSessionInfo) (sid sid2 : String)
    (h : ∀ i ∈ sessions, i.sessionId = sid → i.archived = true) :
    ∀ i ∈ markConnected sessions sid2, i.sessionId = sid → i.archived = true := by
  intro i hi
  rcases List.mem_map.mp hi with ⟨j, hj, hji⟩
  cases hc : j.sessionId == sid2 with
  | true =>
    have hij : i = { j with state := LauncherState.connected } := by
      rw [← hji]
      simp [hc]
    rw [hij]
    exact h j hj
  | false =>
    have hij : i = j := by
      rw [← hji]
      simp [hc]
    rw [hij]
    exact h j hj

theorem watchdogFireCalls_archived_zero (sid : String)
    (sessions : List LauncherSessionInfo)
    (h : ∀ i ∈ sessions, i.sessionId = sid → i.archived = true) :
    (watchdogFireCalls sessions).count sid = 0 := by
  rw [List.count_eq_zero]
  intro hmem
  rcases List.mem_map.mp hmem with ⟨i, hi, hie⟩
  have h1 := List.mem_filter.mp hi
  have h2 := List.mem_filter.mp h1.1
  have harch := h i h2.1 hie
  have := h1.2
  rw [harch] at this
  exact absurd this (by decide)

theorem watchdogRun_archived_zero (sid : String) (events : List WatchdogEvent) :
    ∀ sessions : List LauncherSessionInfo,
      (∀ i ∈ sessions, i.sessionId = sid → i.archived = true) →
      (watchdogRun sessions events).count sid = 0 := by
  induction events with
  | nil => intro sessions _; rfl
  | cons e rest ih =>
    intro sessions h
    rw [watchdogRun_cons]
    cases e with
    | reconnect sid2 =>
      have h2 := markConnected_archived sessions sid sid2 h
      have hstep : watchdogStep sessions (WatchdogEvent.reconnect sid2)
          = (markConnected sessions sid2, []) := rfl
      rw [hstep]
      simpa using ih (markConnected sessions sid2) h2
    | timerFire =>
      have h1 := watchdogFireCalls_archived_zero sid sessions h
      have h2 := ih sessions h
      simp [watchdogStep, List.count_append, h1, h2]

/-- C6: a session whose launcher record is archived is never relaunched by
either recovery path — the browser-attach auto-relaunch guard emits no
relaunch call for it on any event timeline, and the boot-time watchdog emits
no relaunch call for it on any reconnect/timer timeline. -/
theorem archived_never_auto_relaunched
    (g : RelaunchGuardState) (sid : String) (info : LauncherSessionInfo)
    (revents : List RelaunchEvent)
    (sessions2 : List LauncherSessionInfo) (wevents : List WatchdogEvent)
    (hget : getSession g.sessions sid = some info)
    (harch : info.archived = true)
    (harch2 : ∀ i ∈ sessions2, i.sessionId = sid → i.archived = true) :
    (relaunchRun g revents).count sid = 0
    ∧ (watchdogRun sessions2 wevents).count sid = 0 :=
  ⟨relaunchRun_archived_zero sid revents g info hget harch,
   watchdogRun_archived_zero sid wevents sessions2 harch2⟩

/-- C6 witness. -/
theorem archived_never_auto_relaunched_witness :
    (relaunchRun ⟨[], [⟨"s1", LauncherState.stopped, true⟩]⟩
        [RelaunchEvent.relaunchNeeded "s1"]).count "s1" = 0
    ∧ (watchdogRun [⟨"s1", LauncherState.starting, true⟩]
        [WatchdogEvent.timerFire]).count "s1" = 0 :=
  archived_never_auto_relaunched
    ⟨[], [⟨"s1", LauncherState.stopped, true⟩]⟩ "s1"
    ⟨"s1", LauncherState.stopped, true⟩
    [RelaunchEvent.relaunchNeeded "s1"]
    [⟨"s1", LauncherState.starting, true⟩]
    [WatchdogEvent.timerFire]
    rfl rfl (by decide)

theorem watchdogApply_cons (sessions : List LauncherSessionInfo) (e : WatchdogEvent)
    (rest : List WatchdogEvent) :
    watchdogApply sessions (e :: rest) = watchdogApply (watchdogStep sessions e).1 rest := rfl

theorem watchdogRun_append (xs ys : List WatchdogEvent) :
    ∀ sessions : List LauncherSessionInfo,
      watchdogRun sessions (xs ++ ys)
        = watchdogRun sessions xs ++ watchdogRun (watchdogApply sessions xs) ys := by
  induction xs with
  | nil => intro sessions; rfl
  | cons x xs ih =>
    intro sessions
    rw [List.cons_append, watchdogRun_cons, watchdogRun_cons, watchdogApply_cons,
      ih, List.append_assoc]

theorem watchdogRun_noFire_nil (events : List WatchdogEvent)
    (h : ∀ e ∈ events, e ≠ WatchdogEvent.timerFire) :
    ∀ sessions : List LauncherSessionInfo, watchdogRun sessions events = [] := by
  induction events with
  | nil => intro sessions; rfl
  | cons e rest ih =>
    intro sessions
    have hrest : ∀ x ∈ rest, x ≠ WatchdogEvent.timerFire :=
      fun x hx => h x (List.mem_cons_of_mem _ hx)
    cases e with
    | reconnect sid2 =>
      rw [watchdogRun_cons]
      have hstep : watchdogStep sessions (WatchdogEvent.reconnect sid2)
          = (markConnected sessions sid2, []) := rfl
      rw [hstep]
      simpa using ih hrest (markConnected sessions sid2)
    | timerFire =>
      exact absurd rfl (h _ (List.mem_cons_self _ _))

theorem filter_map_preserve {α : Type _} (f : α → α) (p : α → Bool)
    (hp : ∀ j, p (f j) = p j) (hid : ∀ j, p j = true → f j = j) :
    ∀ s : List α, (s.map f).filter p = s.filter p := by
  intro s
  induction s with
  | nil => rfl
  | cons j rest ih =>
    rw [List.map_cons, List.filter_cons, List.filter_cons, hp j]
    cases hpj : p j with
    | true => rw [if_pos rfl, if_pos rfl, hid j hpj, ih]
    | false => rw [if_neg (by simp), if_neg (by simp), ih]

theorem filter_map_comm {α β : Type _} (f : α → β) (p : β → Bool) (q : α → Bool)
    (h : ∀ a, p (f a) = q a) :
    ∀ l : List α, (l.map f).filter p = (l.filter q).map f := by
  intro l
  induction l with
  | nil => rfl
  | cons a rest ih =>
    rw [List.map_cons, List.filter_cons, List.filter_cons, h a]
    cases hqa : q a with
    | true => rw [if_pos rfl, if_pos rfl, List.map_cons, ih]
    | false => rw [if_neg (by simp), if_neg (by simp), ih]

theorem markConnected_filter_ne (sid sid2 : String) (hne : sid2 ≠ sid) :
    ∀ s : List LauncherSessionInfo,
      (markConnected s sid2).filter (fun i => i.sessionId == sid)
        = s.filter (fun i => i.sessionId == sid) := by
  intro s
  apply filter_map_preserve
  · intro j
    by_cases hc : j.sessionId = sid2 <;> simp [hc]
  · intro j hj
    have hjs : j.sessionId = sid := by simpa using hj
    have hc : (j.sessionId == sid2) = false := by simp [hjs, Ne.symm hne]
    simp [hc]

theorem watchdogApply_filter_of_not_reconnect (sid : String)
    (events : List WatchdogEvent)
    (h : WatchdogEvent.reconnect sid ∉ events) :
    ∀ sessions : List LauncherSessionInfo,
      (watchdogApply sessions events).filter (fun i => i.sessionId == sid)
        = sessions.filter (fun i => i.sessionId == sid) := by
  induction events with
  | nil => intro sessions; rfl
  | cons e rest ih =>
    intro sessions
    have hrest : WatchdogEvent.reconnect sid ∉ rest :=
      fun hx => h (List.mem_cons_of_mem _ hx)
    rw [watchdogApply_cons]
    cases e with
    | reconnect sid2 =>
      have hne : sid2 ≠ sid := by
        intro hcontra
        rw [hcontra] at h
        exact h (List.mem_cons_self _ _)
      have hstep : (watchdogStep sessions (WatchdogEvent.reconnect sid2)).1
          = markConnected sessions sid2 := rfl
      rw [hstep, ih hrest, markConnected_filter_ne sid sid2 hne]
    | timerFire =>
      exact ih hrest sessions

theorem fireCalls_zero_of_filter_nil (sid : String) (s : List LauncherSessionInfo)
    (h : s.filter (fun i => i.sessionId == sid) = []) :
    (watchdogFireCalls s).count sid = 0 := by
  rw [List.count_eq_zero]
  intro hmem
  rcases List.mem_map.mp hmem with ⟨i, hi, hie⟩
  have h1 := List.mem_filter.mp hi
  have hgs : i ∈ List.filter (fun j => j.state == LauncherState.starting) s := h1.1
  have h2 := List.mem_filter.mp hgs
  have hin : i ∈ s.filter (fun j => j.sessionId == sid) :=
    List.mem_filter.mpr ⟨h2.1, by simp [hie]⟩
  rw [h] at hin
  simp at hin

theorem fireCalls_count_one (sid : String) (info : LauncherSessionInfo)
    (hst : info.state = LauncherState.starting) (ha : info.archived = false) :
    ∀ s : List LauncherSessionInfo,
      s.filter (fun i => i.sessionId == sid) = [info] →
      (watchdogFireCalls s).count sid = 1 := by
  intro s
  induction s with
  | nil => intro h; simp at h
  | cons i rest ih =>
    intro h
    cases hit : i.sessionId == sid with
    | true =>
      rw [List.filter_cons, if_pos hit] at h
      injection h with hi hrest
      subst hi
      have h1 : (i.state == LauncherState.starting) = true := by simp [hst]
      have h2 : (!i.archived) = true := by simp [ha]
      have h3 : i.sessionId = sid := by simpa using hit
      have hunf : watchdogFireCalls (i :: rest)
          = i.sessionId :: watchdogFireCalls rest := by
        simp [watchdogFireCalls, getStartingSessions, List.filter_cons, h1, h2]
      rw [hunf, List.count_cons]
      have h0 := fireCalls_zero_of_filter_nil sid rest hrest
      simp [h0, h3]
    | false =>
      rw [List.filter_cons, if_neg (by simp [hit])] at h
      have ihres := ih h
      by_cases hs1 : (i.state == LauncherState.starting) = true
      · by_cases hs2 : (!i.archived) = true
        · have hunf : watchdogFireCalls (i :: rest)
              = i.sessionId :: watchdogFireCalls rest := by
            simp [watchdogFireCalls, getStartingSessions, List.filter_cons, hs1, hs2]
          rw [hunf, List.count_cons]
          simp [ihres, hit]
        · have hs2f : (!i.archived) = false := by
            cases hb : (!i.archived)
            · rfl
            · exact absurd hb hs2
          have hunf : watchdogFireCalls (i :: rest) = watchdogFireCalls rest := by
            simp [watchdogFireCalls, getStartingSessions, List.filter_cons, hs1, hs2f]
          rw [hunf]
          exact ihres
      · have hs1f : (i.state == LauncherState.starting) = false := by
          cases hb : (i.state == LauncherState.starting)
          · rfl
          · exact absurd hb hs1
        have hunf : watchdogFireCalls (i :: rest) = watchdogFireCalls rest := by
          simp [watchdogFireCalls, getStartingSessions, List.filter_cons, hs1f]
        rw [hunf]
        exact ihres

theorem markConnected_connInv_self (sid : String) (s : List LauncherSessionInfo) :
    ∀ i ∈ markConnected s sid, i.sessionId = sid → i.state = LauncherState.connected := by
  intro i hi hie
  rcases List.mem_map.mp hi with ⟨j, hj, hji⟩
  cases hc : j.sessionId == sid with
  | true =>
    have hij : i = { j with state := LauncherState.connected } := by
      rw [← hji]
      simp [hc]
    rw [hij]
  | false =>
    have hij : i = j := by
      rw [← hji]
      simp [hc]
    rw [hij] at hie
    rw [hie] at hc
    simp at hc

theorem markConnected_connInv_preserve (sid sid2 : String)
    (s : List LauncherSessionInfo)
    (h : ∀ i ∈ s, i.sessionId = sid → i.state = LauncherState.connected) :
    ∀ i ∈ markConnected s sid2, i.sessionId = sid →
      i.state = LauncherState.connected := by
  intro i hi hie
  rcases List.mem_map.mp hi with ⟨j, hj, hji⟩
  cases hc : j.sessionId == sid2 with
  | true =>
    have hij : i = { j with state := LauncherState.connected } := by
      rw [← hji]
      simp [hc]
    rw [hij]
  | false =>
    have hij : i = j := by
      rw [← hji]
      simp [hc]
    rw [hij] at hie ⊢
    exact h j hj hie

theorem watchdogApply_connInv_preserve (sid : String) (events : List WatchdogEvent) :
    ∀ s : List LauncherSessionInfo,
      (∀ i ∈ s, i.sessionId = sid → i.state = LauncherState.connected) →
      ∀ i ∈ watchdogApply s events, i.sessionId = sid →
        i.state = LauncherState.connected := by
  induction events with
  | nil => intro s h; exact h
  | cons e rest ih =>
    intro s h
    rw [watchdogApply_cons]
    cases e with
    | reconnect sid2 =>
      exact ih (markConnected s sid2) (markConnected_connInv_preserve sid sid2 s h)
    | timerFire =>
      exact ih s h

theorem watchdogApply_connInv_of_mem (sid : String) (events : List WatchdogEvent)
    (hmem : WatchdogEvent.reconnect sid ∈ events) :
    ∀ s : List LauncherSessionInfo,
      ∀ i ∈ watchdogApply s events, i.sessionId = sid →
        i.state = LauncherState.connected := by
  induction events with
  | nil => simp at hmem
  | cons e rest ih =>
    intro s
    rw [watchdogApply_cons]
    by_cases he : e = WatchdogEvent.reconnect sid
    · subst he
      exact watchdogApply_connInv_preserve sid rest (markConnected s sid)
        (markConnected_connInv_self sid s)
    · have hmem2 : WatchdogEvent.reconnect sid ∈ rest := by
        cases List.mem_cons.mp hmem with
        | inl h => exact absurd h.symm he
        | inr h => exact h
      exact ih hmem2 (watchdogStep s e).1

theorem fireCalls_zero_of_connInv (sid : String) (s : List LauncherSessionInfo)
    (h : ∀ i ∈ s, i.sessionId = sid → i.state = LauncherState.connected) :
    (watchdogFireCalls s).count sid = 0 := by
  rw [List.count_eq_zero]
  intro hmem
  rcases List.mem_map.mp hmem with ⟨i, hi, hie⟩
  have h1 := List.mem_filter.mp hi
  have hgs : i ∈ List.filter (fun j => j.state == LauncherState.starting) s := h1.1
  have h2 := List.mem_filter.mp hgs
  have hst : i.state = LauncherState.starting := by simpa using h2.2
  have hconn := h i h2.1 hie
  rw [hconn] at hst
  exact absurd hst (by decide)

theorem restore_filter (persisted : List PersistedSession) (sid : String) :
    (restoreFromDisk persisted).filter (fun i => i.sessionId == sid)
      = (persisted.filter (fun q => q.sessionId == sid)).map
          (fun p => { sessionId := p.sessionId, state := restoreState p.state,
                      archived := p.archived }) := by
  apply filter_map_comm
  intro a
  rfl

/-- C4: boot-time grace window.  Restoring sessions from disk, a session
persisted as connected or starting whose agent does not reconnect before the
grace timer fires gets exactly one relaunch call, emitted by the timer body
(zero calls are emitted before the timer fires); a session whose agent
reconnects before the timer fires is not relaunched. -/
theorem boot_grace_window_relaunch
    (persisted : List PersistedSession) (p : PersistedSession) (sid : String)
    (pre post : List WatchdogEvent)
    (hfilter : persisted.filter (fun q => q.sessionId == sid) = [p])
    (hstate : p.state = PersistedState.pconnected ∨ p.state = PersistedState.pstarting)
    (harch : p.archived = false)
    (hpre : WatchdogEvent.timerFire ∉ pre)
    (hpost : WatchdogEvent.timerFire ∉ post) :
    watchdogRun (restoreFromDisk persisted) pre = []
    ∧ (WatchdogEvent.reconnect sid ∉ pre →
        (watchdogRun (restoreFromDisk persisted)
          (pre ++ WatchdogEvent.timerFire :: post)).count sid = 1)
    ∧ (WatchdogEvent.reconnect sid ∈ pre →
        (watchdogRun (restoreFromDisk persisted)
          (pre ++ WatchdogEvent.timerFire :: post)).count sid = 0) := by
  have hprefun : ∀ e ∈ pre, e ≠ WatchdogEvent.timerFire :=
    fun e he hcontra => hpre (hcontra ▸ he)
  have hpostfun : ∀ e ∈ post, e ≠ WatchdogEvent.timerFire :=
    fun e he hcontra => hpost (hcontra ▸ he)
  have hrunpre : watchdogRun (restoreFromDisk persisted) pre = [] :=
    watchdogRun_noFire_nil pre hprefun _
  have hdecomp : ∀ A : List LauncherSessionInfo,
      watchdogRun A (WatchdogEvent.timerFire :: post)
        = watchdogFireCalls A ++ watchdogRun A post := by
    intro A
    rw [watchdogRun_cons]
    rfl
  have hsplit : (watchdogRun (restoreFromDisk persisted)
        (pre ++ WatchdogEvent.timerFire :: post)).count sid
      = (watchdogFireCalls
          (watchdogApply (restoreFromDisk persisted) pre)).count sid := by
    rw [watchdogRun_append, hrunpre, List.nil_append, hdecomp,
      watchdogRun_noFire_nil post hpostfun, List.append_nil]
  refine ⟨hrunpre, ?_, ?_⟩
  · intro hnorec
    rw [hsplit]
    have hA : (watchdogApply (restoreFromDisk persisted) pre).filter
        (fun i => i.sessionId == sid)
        = [{ sessionId := p.sessionId, state := restoreState p.state,
             archived := p.archived }] := by
      rw [watchdogApply_filter_of_not_reconnect sid pre hnorec, restore_filter,
        hfilter, List.map_cons, List.map_nil]
    refine fireCalls_count_one sid _ ?_ ?_ _ hA
    · rcases hstate with h | h <;> rw [h] <;> rfl
    · exact harch
  · intro hrec
    rw [hsplit]
    exact fireCalls_zero_of_connInv sid _
      (watchdogApply_connInv_of_mem sid pre hrec _)

/-- C4 witness: one persisted connected session, no reconnect, one timer
fire, one relaunch call; plus the zero-before-window part. -/
theorem boot_grace_window_relaunch_witness :
    watchdogRun (restoreFromDisk [⟨"s1", PersistedState.pconnected, false⟩]) [] = []
    ∧ (watchdogRun (restoreFromDisk [⟨"s1", PersistedState.pconnected, false⟩])
        ([] ++ WatchdogEvent.timerFire :: [])).count "s1" = 1 := by
  have h := boot_grace_window_relaunch
    [⟨"s1", PersistedState.pconnected, false⟩]
    ⟨"s1", PersistedState.pconnected, false⟩ "s1" [] []
    (by decide) (Or.inl rfl) rfl (by simp) (by simp)
  exact ⟨h.1, h.2.1 (by simp)⟩

end Companion
